import Mathlib

/-!
# Shallow embedding of the VoxTailor speech service core

This file embeds, in Lean 4, the model-lifecycle and transcription pipeline of
`speech_api/speech_service.py` (class `VoskSpeechService`), together with the
catalog records of `speech_api/database.py` and the result types of
`speech_api/models.py`, and proves or refutes the specified properties.

Modelling conventions:
* the SQLAlchemy catalog is a list of `VoskModelRec` records; `.filter(...).first()`
  becomes `List.find?`;
* floats are idealized as rationals (`ℚ`);
* the external Vosk recognizer is an abstract state machine `Recognizer σ`
  whose per-chunk `AcceptWaveform`/`Result`/`FinalResult` outputs are JSON
  dictionaries modelled by `VoskResult` (absent keys are `Option.none`);
* effectful steps of `download_model` (network, temp file, zip extraction)
  are driven by an explicit environment `DlEnv`, and the function returns,
  besides its `(bool, message)` result, the resulting catalog/filesystem
  state, the count of network requests, and the trace of intermediate
  contents of the shared models directory during extraction.
-/

namespace Voxtail

/-- A catalog record, mirroring the `VoskModel` SQLAlchemy table of
`speech_api/database.py` (fields irrelevant to the verified properties are
omitted). -/
structure VoskModelRec where
  id : String
  language_code : String
  language_name : String
  model_name : String
  download_url : String
  is_downloaded : Bool
  is_active : Bool
  model_path : Option String
deriving DecidableEq, Repr

/-- The catalog database: the list of `vosk_models` rows. -/
abbrev Catalog := List VoskModelRec

/-- `db.query(VoskModel).filter(VoskModel.id == model_id).first()`. -/
def queryById (db : Catalog) (mid : String) : Option VoskModelRec :=
  db.find? (fun m => m.id == mid)

/-- `db.query(VoskModel).filter(VoskModel.id == model_id,
VoskModel.is_downloaded == True).first()` (from `load_model`). -/
def queryDownloaded (db : Catalog) (mid : String) : Option VoskModelRec :=
  db.find? (fun m => m.id == mid && m.is_downloaded)

/-- `TranscriptionSegment` of `speech_api/models.py`. -/
structure TranscriptionSegment where
  text : String
  confidence : ℚ
  start_time : ℚ
  end_time : ℚ
  speaker_id : Option String
deriving DecidableEq, Repr

/-- `TranscriptionResult` of `speech_api/models.py`. -/
structure TranscriptionResult where
  segments : List TranscriptionSegment
  language : String
  duration : ℚ
  processing_time : ℚ
deriving DecidableEq, Repr

/-- One entry of the `result` array of a Vosk JSON result: a recognized word
with optional `start`/`end` timestamps and optional `conf`idence (the Python
code reads each of these keys with `.get`, so each may be absent). -/
structure VoskWord where
  start : Option ℚ
  end_ : Option ℚ
  conf : Option ℚ
deriving DecidableEq, Repr

/-- A Vosk JSON result dictionary as consumed by `_parse_vosk_result`:
`text` (read with `result.get('text', '')`, so a missing key is `""`),
an optional top-level `confidence` value, and an optional `result` array of
per-word data. -/
structure VoskResult where
  text : String
  confidence : Option ℚ
  result : Option (List VoskWord)
deriving DecidableEq, Repr

/-- `len(text.split())`: the number of maximal nonempty runs between
whitespace in `text`. -/
def pyWordCount (text : String) : ℕ :=
  ((text.split Char.isWhitespace).filter (fun w => w ≠ "")).length

/-- `VoskSpeechService._parse_vosk_result(result, offset_samples, sample_rate)`
(speech_service.py lines 168-197), translated clause by clause:

* `text = result.get('text', '')`;
* `confidence = result.get('confidence', 0.0)`;
* `start_time = offset_samples / sample_rate`;
* if `'result' in result and result['result']` (key present and list
  nonempty): `start_time = words[0].get('start', start_time)`;
  `end_time = words[-1].get('end', start_time + len(text.split()) * 0.5)`
  (note: the default uses the already-updated `start_time`);
  `word_confidences = [w.get('conf', 0.0) for w in words if 'conf' in w]`;
  if nonempty, `confidence` becomes its arithmetic mean;
* otherwise `end_time = start_time + len(text.split()) * 0.5`. -/
def parse_vosk_result (r : VoskResult) (offset_samples : ℕ) (sample_rate : ℚ) :
    TranscriptionSegment :=
  let text := r.text
  let confidence0 : ℚ := r.confidence.getD 0
  let start0 : ℚ := (offset_samples : ℚ) / sample_rate
  match r.result with
  | some (w :: ws) =>
      let words := w :: ws
      let start_time := w.start.getD start0
      let end_time := (words.getLast (by simp)).end_.getD
        (start_time + (pyWordCount text : ℚ) * (1/2))
      let word_confidences := words.filterMap (fun x => x.conf)
      let confidence :=
        if word_confidences.length > 0 then
          word_confidences.sum / (word_confidences.length : ℚ)
        else confidence0
      ⟨text, confidence, start_time, end_time, none⟩
  | _ =>
      let end_time := start0 + (pyWordCount text : ℚ) * (1/2)
      ⟨text, confidence0, start0, end_time, none⟩

/-- The abstract external Vosk recognizer (`vosk.KaldiRecognizer`), as a
deterministic state machine over an opaque state type `σ`: feeding a chunk
via `AcceptWaveform` returns a boolean (`true` = an utterance was finalized,
a FINAL event; `false` = only a tentative PARTIAL is available), `resultOf`
is the JSON read by `Result()` when finalized, `partialOf` the JSON of
`PartialResult()` (never read by this code), `next` the recognizer state
after consuming the chunk, and `finalOf` the JSON of the forced
`FinalResult()` flush. -/
structure Recognizer (σ : Type) where
  accept : σ → List ℤ → Bool
  resultOf : σ → List ℤ → VoskResult
  partialOf : σ → List ℤ → VoskResult
  next : σ → List ℤ → σ
  finalOf : σ → VoskResult

/-- `chunk_size = 4000` (speech_service.py line 138). -/
def chunkSize : ℕ := 4000

/-- The offsets visited by `for i in range(0, len(audio_data), chunk_size)`. -/
def chunkOffsets (n : ℕ) : List ℕ :=
  (List.range ((n + (chunkSize - 1)) / chunkSize)).map (fun i => i * chunkSize)

/-- `audio_data[i:i + chunk_size]`. -/
def chunkAt (audio : List ℤ) (i : ℕ) : List ℤ :=
  (audio.drop i).take chunkSize

/-- One decode event of the chunk loop: whether `AcceptWaveform` returned
true (a FINAL event), the JSON dictionary of the corresponding
`Result()`/`FinalResult()`, and the offset `i` (in samples) passed to
`_parse_vosk_result` for that event. -/
structure DecodeEvent where
  isFinal : Bool
  dict : VoskResult
  offset : ℕ
deriving DecidableEq, Repr

/-- The decode events of the chunk loop of `transcribe_audio` (lines
140-146): for each offset, the `AcceptWaveform` outcome and the JSON the
code would read with `Result()`, the recognizer then advancing by the
consumed chunk. -/
def chunkEvts {σ : Type} (R : Recognizer σ) (audio : List ℤ) :
    σ → List ℕ → List DecodeEvent
  | _, [] => []
  | s, o :: rest =>
      let c := chunkAt audio o
      ⟨R.accept s c, R.resultOf s c, o⟩ :: chunkEvts R audio (R.next s c) rest

/-- The recognizer state after the chunk loop has consumed the given
offsets' chunks. -/
def endState {σ : Type} (R : Recognizer σ) (audio : List ℤ) :
    σ → List ℕ → σ
  | s, [] => s
  | s, o :: rest => endState R audio (R.next s (chunkAt audio o)) rest

/-- All decode events of one `transcribe_audio` run: the per-chunk events
followed by the forced final flush (`rec.FinalResult()`, lines 149-151),
which is always a FINAL event at offset `len(audio_data)`. -/
def decodeEvents {σ : Type} (R : Recognizer σ) (s0 : σ) (audio : List ℤ) :
    List DecodeEvent :=
  chunkEvts R audio s0 (chunkOffsets audio.length) ++
    [⟨true, R.finalOf (endState R audio s0 (chunkOffsets audio.length)), audio.length⟩]

/-- The segment-accumulation loop of `transcribe_audio` (lines 136-151),
translated directly: `segments = []`; for each chunk, if
`rec.AcceptWaveform(chunk)` then parse `rec.Result()` and append a segment
when `result.get('text')` is truthy (nonempty); finally parse
`rec.FinalResult()` at offset `len(audio_data)` under the same text check. -/
def segLoop {σ : Type} (R : Recognizer σ) (audio : List ℤ) (sr : ℚ) :
    σ → List TranscriptionSegment → List ℕ → List TranscriptionSegment
  | s, segments, [] =>
      let final_result := R.finalOf s
      if final_result.text ≠ "" then
        segments ++ [parse_vosk_result final_result audio.length sr]
      else segments
  | s, segments, o :: rest =>
      let c := chunkAt audio o
      let segments' :=
        if R.accept s c then
          let result := R.resultOf s c
          if result.text ≠ "" then
            segments ++ [parse_vosk_result result o sr]
          else segments
        else segments
      segLoop R audio sr (R.next s c) segments' rest

/-- The list of segments produced by one `transcribe_audio` run. -/
def segmentsOf {σ : Type} (R : Recognizer σ) (s0 : σ) (audio : List ℤ)
    (sr : ℚ) : List TranscriptionSegment :=
  segLoop R audio sr s0 [] (chunkOffsets audio.length)

/-- The FINAL events with nonempty text: exactly the events from which the
code emits a segment. -/
def finalEvents {σ : Type} (R : Recognizer σ) (s0 : σ) (audio : List ℤ) :
    List DecodeEvent :=
  (decodeEvents R s0 audio).filter (fun e => e.isFinal && e.dict.text != "")

/-! ## The model fetcher: `download_model` (speech_service.py lines 35-78)

The effectful steps are driven by an explicit environment describing where
(if anywhere) the run fails.  The filesystem is modelled at the granularity
the properties need: the set of files (paths relative to the shared models
directory) and the set of staging temp files currently existing. -/

/-- A file path relative to `self.models_dir`, as its list of components
(an archive entry `"name/am/final.mdl"` is `["name", "am", "final.mdl"]`). -/
abbrev FsPath := List String

/-- Contents of the shared models directory: the paths of the files
currently existing under it, duplicate-free. -/
abbrev DirContents := List FsPath

/-- Writing one archive entry into the directory (overwriting an existing
file of the same path keeps the contents as a set). -/
def writeEntry (d : DirContents) (e : FsPath) : DirContents :=
  if e ∈ d then d else d ++ [e]

/-- `zip_ref.extractall(self.models_dir)` writes the archive's entries one
by one; this is the list of directory states it passes through, from the
initial contents to the fully extracted contents. -/
def extractStates (d : DirContents) : List FsPath → List DirContents
  | [] => [d]
  | e :: es => d :: extractStates (writeEntry d e) es

/-- The files of `d` that live under the canonical model directory
`models_dir / name` (i.e. whose first path component is `name`). -/
def modelDirContents (name : String) (d : DirContents) : List FsPath :=
  d.filter (fun p => p.head? == some name)

/-- Outcome of the effectful steps of one `download_model` run:
* `netFail`: `requests.get`/`raise_for_status` (or writing the stream)
  raises before the temp file is in place — nothing was created;
* `extractFail`: the download completed into the temp zip file, but
  `zipfile.ZipFile(...)`/`extractall` raises (corrupt archive, disk error);
* `success entries`: the archive opens and holds the given entries. -/
inductive DlEnv where
  | netFail (msg : String)
  | extractFail (msg : String)
  | success (entries : List FsPath)
deriving DecidableEq, Repr

/-- Mutable state touched by `download_model`: the catalog, the shared
models directory, and the set of staging temp files currently on disk. -/
structure DlState where
  db : Catalog
  fsFiles : DirContents
  tmpFiles : List String
deriving DecidableEq, Repr

/-- What one `download_model` call returns and leaves behind: the
`(success, message)` pair, the final state, the number of network requests
performed, and the trace of models-directory contents (first element:
before extraction; last: after). -/
structure DlReturn where
  ok : Bool
  msg : String
  state : DlState
  netRequests : ℕ
  fsTrace : List DirContents
deriving DecidableEq, Repr

/-- `db.commit()` after `model.is_downloaded = True; model.model_path =
str(model_path)` (lines 67-70): update the matching catalog row. -/
def markDownloaded (db : Catalog) (mid path : String) : Catalog :=
  db.map (fun m =>
    if m.id == mid then { m with is_downloaded := true, model_path := some path }
    else m)

/-- `VoskSpeechService.download_model(model_id, db)` (lines 35-78):

* `first()` on the id filter; `None` → `(False, "Model not found")`;
* already downloaded → `(True, "Model already downloaded")`, no effects;
* otherwise one network request is made; on a network failure the
  `except` clause returns `(False, "Download failed: " + str(e))` with no
  temp file yet created; after a completed download, a temp zip file
  `tmpName` exists, and on an extraction failure the same `except` clause
  returns — `os.unlink(tmp_file_path)` (line 73) is only reached on
  success, so the temp file stays behind;
* on success, `extractall` writes the entries directly into the shared
  models directory (line 65), the catalog row is committed with
  `is_downloaded = True` and `model_path = models_dir / model.model_name`,
  and the temp file is removed. -/
def download_model (mid : String) (s : DlState) (env : DlEnv) (tmpName : String) :
    DlReturn :=
  match queryById s.db mid with
  | none => ⟨false, "Model not found", s, 0, [s.fsFiles]⟩
  | some model =>
    if model.is_downloaded then
      ⟨true, "Model already downloaded", s, 0, [s.fsFiles]⟩
    else
      match env with
      | .netFail e =>
          ⟨false, "Download failed: " ++ e, s, 1, [s.fsFiles]⟩
      | .extractFail e =>
          ⟨false, "Download failed: " ++ e,
            { s with tmpFiles := s.tmpFiles ++ [tmpName] }, 1, [s.fsFiles]⟩
      | .success entries =>
          let trace := extractStates s.fsFiles entries
          let fs' := entries.foldl writeEntry s.fsFiles
          let path := "../vosk_models/" ++ model.model_name
          ⟨true, "Model " ++ model.language_name ++ " downloaded successfully",
            ⟨markDownloaded s.db mid path, fs', s.tmpFiles⟩, 1, trace⟩

/-! ## The model cache: `load_model` (speech_service.py lines 80-99) -/

/-- In-process cache state: `self.loaded_models` as an association list from
model id to an opaque handle (a natural number standing for one constructed
`vosk.Model` object), a fresh-handle supply, and the running count of
`vosk.Model(...)` constructions performed (the "underlying loads"). -/
structure CacheState where
  loaded_models : List (String × ℕ)
  nextHandle : ℕ
  loads : ℕ
deriving DecidableEq, Repr

/-- What `load_model` returns: the optional handle, the cache state after
the call, and the number of catalog queries the call performed. -/
structure LoadReturn where
  handle : Option ℕ
  state : CacheState
  dbQueries : ℕ
deriving DecidableEq, Repr

/-- `VoskSpeechService.load_model(model_id, db)` (lines 80-99):

* `if model_id in self.loaded_models: return self.loaded_models[model_id]`
  — served from the cache, no catalog query;
* otherwise query the catalog filtered on the id and `is_downloaded`;
  `if not model or not model.model_path: return None` (Python truthiness:
  `None` or the empty string are both falsy);
* otherwise construct `vosk.Model(model.model_path)` (success of the
  construction is the environment bit `loadOk`; on an exception the code
  prints and returns `None`), cache it and return it. -/
def load_model (mid : String) (db : Catalog) (s : CacheState) (loadOk : Bool) :
    LoadReturn :=
  match (s.loaded_models.lookup mid : Option ℕ) with
  | some h => ⟨some h, s, 0⟩
  | none =>
    match queryDownloaded db mid with
    | none => ⟨none, s, 1⟩
    | some model =>
      if model.model_path.getD "" == "" then ⟨none, s, 1⟩
      else if loadOk then
        ⟨some s.nextHandle,
          ⟨(mid, s.nextHandle) :: s.loaded_models, s.nextHandle + 1, s.loads + 1⟩, 1⟩
      else ⟨none, s, 1⟩

/-! ## `transcribe_audio` (speech_service.py lines 114-166)

Audio decoding/resampling (`preprocess_audio`, an external librosa call) is
abstracted: the function receives the already-preprocessed 16-bit sample
list, and `sample_rate` is the fixed `target_sr = 16000` the code uses.
Wall-clock `processing_time` is an input (`ptime`). -/

/-- The sample rate `preprocess_audio` always returns (`target_sr`). -/
def targetSr : ℚ := 16000

/-- `VoskSpeechService.transcribe_audio(file_path, model_id, db, ...)`:
loads the model (raising `Exception(f"Model {model_id} not available or not
downloaded")` when `load_model` returns `None`), streams the audio chunks
through a fresh recognizer collecting segments, queries the catalog (id
filter only) for the language code (`"unknown"` when the row is missing),
and assembles the `TranscriptionResult`. -/
def transcribe_audio {σ : Type} (R : Recognizer σ) (s0 : σ) (audio : List ℤ)
    (mid : String) (db : Catalog) (cs : CacheState) (loadOk : Bool) (ptime : ℚ) :
    Except String (TranscriptionResult × CacheState) :=
  let lr := load_model mid db cs loadOk
  match lr.handle with
  | none => .error ("Model " ++ mid ++ " not available or not downloaded")
  | some _ =>
    let segments := segmentsOf R s0 audio targetSr
    let language :=
      match queryById db mid with
      | some mi => mi.language_code
      | none => "unknown"
    .ok (⟨segments, language, (audio.length : ℚ) / targetSr, ptime⟩, lr.state)

/-! ## Concrete fixtures used by witnesses and counterexamples -/

/-- A catalog row that is not yet downloaded. -/
def mEn : VoskModelRec :=
  ⟨"en-us-small", "en-US", "English (US)", "vosk-model-en-us-0.22",
    "https://alphacephei.com/vosk/models/vosk-model-en-us-0.22.zip",
    false, true, none⟩

/-- The same row, already downloaded. -/
def mEnDl : VoskModelRec :=
  { mEn with is_downloaded := true,
             model_path := some "../vosk_models/vosk-model-en-us-0.22" }

/-- A two-entry archive whose content root is the model folder. -/
def twoEntryArchive : List FsPath :=
  [["vosk-model-en-us-0.22", "am"], ["vosk-model-en-us-0.22", "conf"]]

/-! ## Lemmas about the extraction trace -/

theorem extractStates_length (es : List FsPath) :
    ∀ d : DirContents, (extractStates d es).length = es.length + 1 := by
  induction es with
  | nil => intro d; rfl
  | cons e es ih => intro d; simpa [extractStates] using ih (writeEntry d e)

theorem extractStates_get? (es : List FsPath) :
    ∀ (d : DirContents) (k : ℕ), k ≤ es.length →
      (extractStates d es)[k]? = some ((es.take k).foldl writeEntry d) := by
  induction es with
  | nil =>
      intro d k hk
      obtain rfl : k = 0 := Nat.le_zero.mp hk
      rfl
  | cons e es ih =>
      intro d k hk
      cases k with
      | zero => simp [extractStates]
      | succ k =>
          simpa [extractStates] using ih (writeEntry d e) k (by simpa using hk)

/-! ## C1: extraction goes straight into the canonical directory -/

/-- **C1, counterexample.**  The claim asserts that on a download of a
not-yet-downloaded model the canonical model directory is never observed in
a partially populated state (the archive would be extracted into a private
temporary directory and swapped in atomically).  Concretely: starting from
an empty models directory, downloading `en-us-small` with a two-entry
archive passes through an intermediate filesystem state in which the
canonical directory `vosk-model-en-us-0.22` holds exactly one of its two
files — neither empty nor complete.  `zip_ref.extractall(self.models_dir)`
(speech_service.py line 65) writes entries directly into the shared models
directory, entry by entry. -/
theorem download_no_partial_population_cx :
    ¬ (∀ d ∈ (download_model "en-us-small" ⟨[mEn], [], []⟩
          (.success twoEntryArchive) "/tmp/dl.zip").fsTrace,
        modelDirContents "vosk-model-en-us-0.22" d = [] ∨
        modelDirContents "vosk-model-en-us-0.22" d =
          modelDirContents "vosk-model-en-us-0.22"
            (download_model "en-us-small" ⟨[mEn], [], []⟩
              (.success twoEntryArchive) "/tmp/dl.zip").state.fsFiles) := by
  decide

/-- **C1, amended.**  On a successful download of a not-yet-downloaded
model, the archive is extracted entry by entry directly into the shared
models directory (no private temporary directory, no atomic rename swap):
the run succeeds, its filesystem trace is exactly the entry-by-entry
extraction trace, and after `k` of the `n` entries the directory holds
exactly the initial contents plus the first `k` entries — so with two or
more fresh entries under the model folder, intermediate partially populated
states do occur. -/
theorem download_extracts_entrywise_into_models_dir
    (mid tmp : String) (s : DlState) (entries : List FsPath)
    (model : VoskModelRec) (hfind : queryById s.db mid = some model)
    (hdl : model.is_downloaded = false) :
    (download_model mid s (.success entries) tmp).ok = true ∧
    (download_model mid s (.success entries) tmp).fsTrace =
      extractStates s.fsFiles entries ∧
    (∀ k ≤ entries.length,
      (download_model mid s (.success entries) tmp).fsTrace[k]? =
        some ((entries.take k).foldl writeEntry s.fsFiles)) ∧
    (download_model mid s (.success entries) tmp).state.fsFiles =
      entries.foldl writeEntry s.fsFiles := by
  refine ⟨?_, ?_, ?_, ?_⟩
  · simp [download_model, hfind, hdl]
  · simp [download_model, hfind, hdl]
  · intro k hk
    simp only [download_model, hfind, hdl]
    exact extractStates_get? entries s.fsFiles k hk
  · simp [download_model, hfind, hdl]

/-- **C1, amended, witness.** -/
theorem download_extracts_entrywise_into_models_dir_witness :
    queryById [mEn] "en-us-small" = some mEn ∧ mEn.is_downloaded = false ∧
    ((download_model "en-us-small" ⟨[mEn], [], []⟩
        (.success twoEntryArchive) "/tmp/dl.zip").ok = true ∧
     (download_model "en-us-small" ⟨[mEn], [], []⟩
        (.success twoEntryArchive) "/tmp/dl.zip").fsTrace =
       extractStates [] twoEntryArchive ∧
     (∀ k ≤ twoEntryArchive.length,
       (download_model "en-us-small" ⟨[mEn], [], []⟩
          (.success twoEntryArchive) "/tmp/dl.zip").fsTrace[k]? =
         some ((twoEntryArchive.take k).foldl writeEntry [])) ∧
     (download_model "en-us-small" ⟨[mEn], [], []⟩
        (.success twoEntryArchive) "/tmp/dl.zip").state.fsFiles =
       twoEntryArchive.foldl writeEntry []) := by
  refine ⟨by decide, by decide, ?_⟩
  exact download_extracts_entrywise_into_models_dir "en-us-small" "/tmp/dl.zip"
    ⟨[mEn], [], []⟩ twoEntryArchive mEn (by decide) (by decide)

/-! ## C2: what a failed download leaves behind -/

/-- **C2, counterexample.**  The claim asserts that a failed download
removes all staging artifacts it created.  Concretely: downloading
`en-us-small` (not yet downloaded) where the archive turns out corrupt —
`zipfile.ZipFile` raises after the temp zip was written — returns failure,
but the temp file `/tmp/dl.zip` is still on disk after the call:
`os.unlink(tmp_file_path)` (speech_service.py line 73) is only reached on
the success path, and the `except` clause (lines 77-78) performs no
cleanup. -/
theorem download_failure_cleanup_cx :
    (download_model "en-us-small" ⟨[mEn], [], []⟩
        (.extractFail "Bad zip file") "/tmp/dl.zip").ok = false ∧
    (download_model "en-us-small" ⟨[mEn], [], []⟩
        (.extractFail "Bad zip file") "/tmp/dl.zip").state.tmpFiles ≠ [] := by
  decide

/-- **C2, amended.**  On a failed download of a not-yet-downloaded model
(network failure, or a failure at extraction time), the call returns
`False` paired with the stringified exception message `"Download failed:
..."` (not a typed error); the catalog row is left untouched (`downloaded`
still false, `local_path` still unset) and the models directory is
unchanged; a temp download file created before the failure point is NOT
removed (only a network failure, which precedes its creation, leaves no
artifact); and a subsequent `download` of the same model from the
post-failure state nonetheless succeeds with no manual cleanup. -/
theorem download_failure_behavior
    (mid tmp e : String) (s : DlState)
    (model : VoskModelRec) (hfind : queryById s.db mid = some model)
    (hdl : model.is_downloaded = false) :
    (download_model mid s (.netFail e) tmp).ok = false ∧
    (download_model mid s (.netFail e) tmp).msg = "Download failed: " ++ e ∧
    (download_model mid s (.netFail e) tmp).state = s ∧
    (download_model mid s (.extractFail e) tmp).ok = false ∧
    (download_model mid s (.extractFail e) tmp).msg = "Download failed: " ++ e ∧
    (download_model mid s (.extractFail e) tmp).state.db = s.db ∧
    (download_model mid s (.extractFail e) tmp).state.fsFiles = s.fsFiles ∧
    (download_model mid s (.extractFail e) tmp).state.tmpFiles =
      s.tmpFiles ++ [tmp] ∧
    (∀ (entries : List FsPath) (tmp2 : String),
      (download_model mid (download_model mid s (.extractFail e) tmp).state
        (.success entries) tmp2).ok = true) := by
  refine ⟨?_, ?_, ?_, ?_, ?_, ?_, ?_, ?_, ?_⟩ <;>
    simp [download_model, hfind, hdl]

/-- **C2, amended, witness.** -/
theorem download_failure_behavior_witness :
    queryById [mEn] "en-us-small" = some mEn ∧ mEn.is_downloaded = false ∧
    ((download_model "en-us-small" ⟨[mEn], [], []⟩
        (.netFail "conn reset") "/tmp/dl.zip").ok = false ∧
     (download_model "en-us-small" ⟨[mEn], [], []⟩
        (.netFail "conn reset") "/tmp/dl.zip").msg =
       "Download failed: " ++ "conn reset" ∧
     (download_model "en-us-small" ⟨[mEn], [], []⟩
        (.netFail "conn reset") "/tmp/dl.zip").state = ⟨[mEn], [], []⟩ ∧
     (download_model "en-us-small" ⟨[mEn], [], []⟩
        (.extractFail "conn reset") "/tmp/dl.zip").ok = false ∧
     (download_model "en-us-small" ⟨[mEn], [], []⟩
        (.extractFail "conn reset") "/tmp/dl.zip").msg =
       "Download failed: " ++ "conn reset" ∧
     (download_model "en-us-small" ⟨[mEn], [], []⟩
        (.extractFail "conn reset") "/tmp/dl.zip").state.db = [mEn] ∧
     (download_model "en-us-small" ⟨[mEn], [], []⟩
        (.extractFail "conn reset") "/tmp/dl.zip").state.fsFiles = [] ∧
     (download_model "en-us-small" ⟨[mEn], [], []⟩
        (.extractFail "conn reset") "/tmp/dl.zip").state.tmpFiles =
       [] ++ ["/tmp/dl.zip"] ∧
     (∀ (entries : List FsPath) (tmp2 : String),
       (download_model "en-us-small"
          (download_model "en-us-small" ⟨[mEn], [], []⟩
            (.extractFail "conn reset") "/tmp/dl.zip").state
          (.success entries) tmp2).ok = true)) := by
  refine ⟨by decide, by decide, ?_⟩
  exact download_failure_behavior "en-us-small" "/tmp/dl.zip" "conn reset"
    ⟨[mEn], [], []⟩ mEn (by decide) (by decide)

/-! ## C3: download is idempotent on an already-downloaded model -/

/-- **C3.**  If the catalog row for the requested id is already marked
downloaded, `download_model` returns success (`"Model already
downloaded"`) immediately, performs no network request, leaves the whole
state (catalog, models directory, temp files) unchanged, and a second call
from the resulting state succeeds the same way with no network activity. -/
theorem download_already_downloaded_idempotent
    (mid : String) (s : DlState) (env env' : DlEnv) (tmp tmp' : String)
    (model : VoskModelRec) (hfind : queryById s.db mid = some model)
    (hdl : model.is_downloaded = true) :
    (download_model mid s env tmp).ok = true ∧
    (download_model mid s env tmp).msg = "Model already downloaded" ∧
    (download_model mid s env tmp).state = s ∧
    (download_model mid s env tmp).netRequests = 0 ∧
    (download_model mid (download_model mid s env tmp).state env' tmp').ok = true ∧
    (download_model mid (download_model mid s env tmp).state env' tmp').state = s ∧
    (download_model mid (download_model mid s env tmp).state env' tmp').netRequests
      = 0 := by
  refine ⟨?_, ?_, ?_, ?_, ?_, ?_, ?_⟩ <;>
    simp [download_model, hfind, hdl]

/-- **C3, witness.** -/
theorem download_already_downloaded_idempotent_witness :
    queryById [mEnDl] "en-us-small" = some mEnDl ∧
    mEnDl.is_downloaded = true ∧
    ((download_model "en-us-small" ⟨[mEnDl], [], []⟩
        (.netFail "x") "/tmp/a.zip").ok = true ∧
     (download_model "en-us-small" ⟨[mEnDl], [], []⟩
        (.netFail "x") "/tmp/a.zip").msg = "Model already downloaded" ∧
     (download_model "en-us-small" ⟨[mEnDl], [], []⟩
        (.netFail "x") "/tmp/a.zip").state = ⟨[mEnDl], [], []⟩ ∧
     (download_model "en-us-small" ⟨[mEnDl], [], []⟩
        (.netFail "x") "/tmp/a.zip").netRequests = 0 ∧
     (download_model "en-us-small"
        (download_model "en-us-small" ⟨[mEnDl], [], []⟩
          (.netFail "x") "/tmp/a.zip").state (.netFail "y") "/tmp/b.zip").ok
       = true ∧
     (download_model "en-us-small"
        (download_model "en-us-small" ⟨[mEnDl], [], []⟩
          (.netFail "x") "/tmp/a.zip").state (.netFail "y") "/tmp/b.zip").state
       = ⟨[mEnDl], [], []⟩ ∧
     (download_model "en-us-small"
        (download_model "en-us-small" ⟨[mEnDl], [], []⟩
          (.netFail "x") "/tmp/a.zip").state
        (.netFail "y") "/tmp/b.zip").netRequests = 0) := by
  refine ⟨by decide, by decide, ?_⟩
  exact download_already_downloaded_idempotent "en-us-small" ⟨[mEnDl], [], []⟩
    (.netFail "x") (.netFail "y") "/tmp/a.zip" "/tmp/b.zip" mEnDl
    (by decide) (by decide)

/-! ## Recognizer fixtures for the transcription theorems -/

/-- A recognizer that never finalizes mid-stream and flushes one nonempty
FINAL result carrying no per-word data and no top-level confidence. -/
def recPlain : Recognizer Unit :=
  ⟨fun _ _ => false, fun _ _ => ⟨"", none, none⟩, fun _ _ => ⟨"", none, none⟩,
   fun _ _ => (), fun _ => ⟨"ok", none, none⟩⟩

/-! ## C5: loading a model that is not downloaded fails -/

/-- **C5.**  For a model id with no cached handle and no catalog row marked
downloaded, `load_model` returns no handle (and leaves the cache
untouched), and a transcription request for that id raises — it produces
the error `"Model <id> not available or not downloaded"` instead of a
`TranscriptionResult`. -/
theorem load_not_downloaded_fails {σ : Type}
    (R : Recognizer σ) (s0 : σ) (audio : List ℤ) (ptime : ℚ)
    (mid : String) (db : Catalog) (cs : CacheState) (loadOk : Bool)
    (hcache : cs.loaded_models.lookup mid = none)
    (hdb : queryDownloaded db mid = none) :
    (load_model mid db cs loadOk).handle = none ∧
    (load_model mid db cs loadOk).state = cs ∧
    transcribe_audio R s0 audio mid db cs loadOk ptime =
      .error ("Model " ++ mid ++ " not available or not downloaded") := by
  refine ⟨?_, ?_, ?_⟩ <;> simp [load_model, transcribe_audio, hcache, hdb]

/-- **C5, witness.**  The catalog holds the `en-us-small` row but it is not
downloaded, and the cache is empty. -/
theorem load_not_downloaded_fails_witness :
    (CacheState.mk [] 0 0).loaded_models.lookup "en-us-small" = none ∧
    queryDownloaded [mEn] "en-us-small" = none ∧
    ((load_model "en-us-small" [mEn] ⟨[], 0, 0⟩ true).handle = none ∧
     (load_model "en-us-small" [mEn] ⟨[], 0, 0⟩ true).state = ⟨[], 0, 0⟩ ∧
     transcribe_audio recPlain () [] "en-us-small" [mEn] ⟨[], 0, 0⟩ true 0 =
       .error ("Model " ++ "en-us-small" ++ " not available or not downloaded")) := by
  refine ⟨by decide, by decide, ?_⟩
  exact load_not_downloaded_fails recPlain () [] 0 "en-us-small" [mEn]
    ⟨[], 0, 0⟩ true (by decide) (by decide)

/-! ## C10: a cached handle bypasses the catalog entirely -/

/-- **C10.**  When the id is present in the in-process `loaded_models`
cache, `load_model` returns the cached handle having performed zero catalog
queries and leaving the cache state unchanged — so the downloaded-status
check applies only to first-time loads — and for ANY catalog contents `db`
(in particular one recording the model as not downloaded, as
`main.delete_model` writes while leaving a stale cache entry behind on its
error path), a transcription request for that id succeeds with a
`TranscriptionResult`. -/
theorem load_cached_skips_catalog {σ : Type}
    (R : Recognizer σ) (s0 : σ) (audio : List ℤ) (ptime : ℚ)
    (mid : String) (cs : CacheState) (loadOk : Bool) (h : ℕ)
    (hcache : cs.loaded_models.lookup mid = some h) :
    ∀ db : Catalog,
      load_model mid db cs loadOk = ⟨some h, cs, 0⟩ ∧
      ∃ out, transcribe_audio R s0 audio mid db cs loadOk ptime = .ok out := by
  intro db
  refine ⟨by simp [load_model, hcache], ?_⟩
  refine ⟨⟨⟨segmentsOf R s0 audio targetSr,
    match queryById db mid with
    | some mi => mi.language_code
    | none => "unknown", (audio.length : ℚ) / targetSr, ptime⟩, cs⟩, ?_⟩
  simp [transcribe_audio, load_model, hcache]

/-- **C10, witness.**  The cache holds a handle for `en-us-small` while the
catalog simultaneously records it as not downloaded; the load is served
from the cache with no catalog query and transcription succeeds. -/
theorem load_cached_skips_catalog_witness :
    (CacheState.mk [("en-us-small", 7)] 8 1).loaded_models.lookup "en-us-small"
      = some 7 ∧
    (load_model "en-us-small" [mEn] ⟨[("en-us-small", 7)], 8, 1⟩ true =
       ⟨some 7, ⟨[("en-us-small", 7)], 8, 1⟩, 0⟩ ∧
     ∃ out, transcribe_audio recPlain () [] "en-us-small" [mEn]
        ⟨[("en-us-small", 7)], 8, 1⟩ true 0 = .ok out) := by
  refine ⟨by decide, ?_⟩
  exact load_cached_skips_catalog recPlain () [] 0 "en-us-small"
    ⟨[("en-us-small", 7)], 8, 1⟩ true 7 (by decide) [mEn]

/-! ## The segment loop assembles exactly the nonempty FINAL events -/

/-- The accumulator form of the chunk loop: starting from `acc`, the loop
appends precisely the parses of the FINAL events with nonempty text (chunk
events and the final flush), in order. -/
theorem segLoop_eq_events {σ : Type} (R : Recognizer σ) (audio : List ℤ)
    (sr : ℚ) :
    ∀ (offs : List ℕ) (s : σ) (acc : List TranscriptionSegment),
      segLoop R audio sr s acc offs =
        acc ++ ((chunkEvts R audio s offs ++
          ([⟨true, R.finalOf (endState R audio s offs), audio.length⟩] :
            List DecodeEvent)).filter
            (fun e : DecodeEvent => e.isFinal && e.dict.text != "")).map
          (fun e : DecodeEvent => parse_vosk_result e.dict e.offset sr) := by
  intro offs
  induction offs with
  | nil =>
      intro s acc
      by_cases hf : (R.finalOf s).text = "" <;>
        simp [segLoop, chunkEvts, endState, hf]
  | cons o rest ih =>
      intro s acc
      simp only [segLoop, chunkEvts, endState]
      rw [ih]
      by_cases ha : R.accept s (chunkAt audio o) <;>
        by_cases ht : (R.resultOf s (chunkAt audio o)).text = "" <;>
          simp [ha, ht]

/-- The transcript of a run equals the parses of its nonempty FINAL
events, in order (shared helper). -/
theorem segmentsOf_eq_map_parse {σ : Type} (R : Recognizer σ)
    (s0 : σ) (audio : List ℤ) (sr : ℚ) :
    segmentsOf R s0 audio sr =
      (finalEvents R s0 audio).map
        (fun e => parse_vosk_result e.dict e.offset sr) := by
  simpa [segmentsOf, finalEvents, decodeEvents] using
    segLoop_eq_events R audio sr (chunkOffsets audio.length) s0 []

/-- **C6.**  For every audio chunk sequence and recognizer behavior, the
final transcript is exactly the in-order list of parses of the FINAL decode
events with nonempty text — including the forced final flush after the last
chunk — one segment per such event; PARTIAL events (`AcceptWaveform`
returning false) and events with empty text contribute no segment. -/
theorem transcript_is_parsed_final_events {σ : Type} (R : Recognizer σ)
    (s0 : σ) (audio : List ℤ) (sr : ℚ) :
    segmentsOf R s0 audio sr =
      (finalEvents R s0 audio).map
        (fun e => parse_vosk_result e.dict e.offset sr) :=
  segmentsOf_eq_map_parse R s0 audio sr

/-! ## C7: the confidence fallback chain -/

/-- **C7, counterexample.**  The claim asserts that when a FINAL event
reports no per-unit (per-word) confidence data the segment's confidence is
`0.0`.  But `confidence = result.get('confidence', 0.0)` (speech_service.py
line 171) prefers a top-level `confidence` value when the event carries
one: the event `{"text": "hi", "confidence": 0.9}` has no per-unit data
(`result.result = none`), yet its segment's confidence is `0.9`, not `0`. -/
theorem parse_confidence_default_cx :
    (VoskResult.mk "hi" (some (9/10)) none).result = none ∧
    (parse_vosk_result ⟨"hi", some (9/10), none⟩ 0 16000).confidence = 9/10 ∧
    ((9 : ℚ)/10) ≠ 0 := by
  refine ⟨rfl, rfl, by norm_num⟩

/-- The confidence rule the code actually implements (the amended claim):
the arithmetic mean of the per-word confidences reported in the event when
at least one word carries a `conf` value; otherwise the event's top-level
`confidence` value; `0.0` only when that too is absent. -/
def confidenceRule (r : VoskResult) : ℚ :=
  match r.result with
  | some (w :: ws) =>
      let word_confidences := (w :: ws).filterMap (fun x => x.conf)
      if word_confidences.length > 0 then
        word_confidences.sum / (word_confidences.length : ℚ)
      else r.confidence.getD 0
  | _ => r.confidence.getD 0

/-- **C7, amended.**  Every parsed segment's confidence follows the
fallback chain `confidenceRule`: the arithmetic mean of the per-unit
confidences reported in the event when any exist, else the event's
top-level confidence value, else `0.0` (never undefined). -/
theorem parse_confidence_eq_rule (r : VoskResult) (o : ℕ) (sr : ℚ) :
    (parse_vosk_result r o sr).confidence = confidenceRule r := by
  rcases r with ⟨t, c, res⟩
  cases res with
  | none => rfl
  | some ws => cases ws <;> rfl

/-! ## C8: segment start times -/

/-- The start value the code derives for one event: the first word's
reported `start` when word results are present and carry one, else the
chunk-offset-based default `offset / sample_rate`. -/
def segStartOf (r : VoskResult) (o : ℕ) (sr : ℚ) : ℚ :=
  match r.result with
  | some (w :: _) => w.start.getD ((o : ℚ) / sr)
  | _ => (o : ℚ) / sr

/-- Whether the event carries a reported start time for its first word. -/
def hasWordStart (r : VoskResult) : Bool :=
  match r.result with
  | some (w :: _) => w.start.isSome
  | _ => false

theorem parse_start_eq_segStart (r : VoskResult) (o : ℕ) (sr : ℚ) :
    (parse_vosk_result r o sr).start_time = segStartOf r o sr := by
  rcases r with ⟨t, c, res⟩
  cases res with
  | none => rfl
  | some ws => cases ws <;> rfl

theorem segStart_of_no_word_start (r : VoskResult) (o : ℕ) (sr : ℚ)
    (h : hasWordStart r = false) : segStartOf r o sr = (o : ℚ) / sr := by
  rcases r with ⟨t, c, res⟩
  cases res with
  | none => rfl
  | some ws =>
      cases ws with
      | nil => rfl
      | cons w ws' =>
          cases hws : w.start with
          | none => simp [segStartOf, hws]
          | some v => simp [hasWordStart, hws] at h

/-- A recognizer whose chunk event reports an utterance starting at 5 s
while the final flush reports one starting at 1 s. -/
def recOutOfOrder : Recognizer Unit :=
  ⟨fun _ _ => true,
   fun _ _ => ⟨"hello", none, some [⟨some 5, some 6, some (1/2)⟩]⟩,
   fun _ _ => ⟨"", none, none⟩,
   fun _ _ => (),
   fun _ => ⟨"world", none, some [⟨some 1, some 2, some (1/2)⟩]⟩⟩

/-- **C8, counterexample.**  The claim asserts that for every chunk
sequence the emitted segments are non-decreasing in `start_time`.  But the
code copies `words[0]['start']` from the recognizer's JSON unexamined
(speech_service.py line 179): with a recognizer reporting word start 5 for
the chunk event and word start 1 for the flush, the one-chunk stream `[0]`
yields segments with start times `[5, 1]` — decreasing. -/
theorem segments_start_order_cx :
    ¬ List.Chain' (fun a b : TranscriptionSegment => a.start_time ≤ b.start_time)
      (segmentsOf recOutOfOrder () [0] 16000) := by
  have h : segmentsOf recOutOfOrder () [0] 16000 =
      [parse_vosk_result ⟨"hello", none, some [⟨some 5, some 6, some (1/2)⟩]⟩ 0 16000,
       parse_vosk_result ⟨"world", none, some [⟨some 1, some 2, some (1/2)⟩]⟩ 1 16000] := by
    simp [segmentsOf, chunkOffsets, chunkSize, segLoop, recOutOfOrder, chunkAt]
  rw [h]
  simp [List.chain'_cons, parse_vosk_result]

theorem chunkEvts_map_offset {σ : Type} (R : Recognizer σ) (audio : List ℤ) :
    ∀ (offs : List ℕ) (s : σ),
      (chunkEvts R audio s offs).map (fun e => e.offset) = offs := by
  intro offs
  induction offs with
  | nil => intro s; rfl
  | cons o rest ih => intro s; simp [chunkEvts, ih]

theorem chunkOffsets_lt (n : ℕ) : ∀ o ∈ chunkOffsets n, o < n := by
  intro o ho
  simp only [chunkOffsets, chunkSize, List.mem_map, List.mem_range] at ho
  obtain ⟨i, hi, rfl⟩ := ho
  omega

theorem chunkOffsets_pairwise (n : ℕ) : (chunkOffsets n).Pairwise (· < ·) := by
  simp only [chunkOffsets]
  refine List.pairwise_map.mpr ?_
  refine (List.pairwise_lt_range _).imp ?_
  intro a b h
  simp only [chunkSize]
  omega

/-- The decode events of a run carry non-decreasing offsets. -/
theorem decodeEvents_offsets_pairwise {σ : Type} (R : Recognizer σ)
    (s0 : σ) (audio : List ℤ) :
    (decodeEvents R s0 audio).Pairwise
      (fun e e' : DecodeEvent => e.offset ≤ e'.offset) := by
  unfold decodeEvents
  rw [List.pairwise_append]
  refine ⟨?_, by simp, ?_⟩
  · have h := chunkOffsets_pairwise audio.length
    rw [← chunkEvts_map_offset R audio (chunkOffsets audio.length) s0] at h
    exact (List.pairwise_map.mp h).imp (fun hab => le_of_lt hab)
  · intro e he e' he'
    simp only [List.mem_singleton] at he'
    subst he'
    have : e.offset ∈ chunkOffsets audio.length := by
      rw [← chunkEvts_map_offset R audio (chunkOffsets audio.length) s0]
      exact List.mem_map_of_mem _ he
    exact le_of_lt (chunkOffsets_lt audio.length _ this)

/-- **C8, amended.**  The segments are non-decreasing in `start_time` if
and only if the per-event start values the code derives — the first word's
engine-reported `start` when present, else the chunk-offset default — are
non-decreasing across the nonempty FINAL events; in particular, when no
final event carries a reported word start, the offset-based defaults are
always non-decreasing and the segments are sorted unconditionally. -/
theorem segments_sorted_iff_starts_sorted {σ : Type} (R : Recognizer σ)
    (s0 : σ) (audio : List ℤ) (sr : ℚ) (hsr : 0 < sr) :
    (List.Chain' (· ≤ ·)
        ((finalEvents R s0 audio).map (fun e => segStartOf e.dict e.offset sr)) ↔
      List.Chain' (fun a b : TranscriptionSegment => a.start_time ≤ b.start_time)
        (segmentsOf R s0 audio sr)) ∧
    ((∀ e ∈ finalEvents R s0 audio, hasWordStart e.dict = false) →
      List.Chain' (fun a b : TranscriptionSegment => a.start_time ≤ b.start_time)
        (segmentsOf R s0 audio sr)) := by
  constructor
  · rw [segmentsOf_eq_map_parse, List.chain'_map, List.chain'_map]
    constructor
    · intro h
      exact h.imp (fun {a b} hab => by
        rw [parse_start_eq_segStart, parse_start_eq_segStart]; exact hab)
    · intro h
      exact h.imp (fun {a b} hab => by
        rw [parse_start_eq_segStart, parse_start_eq_segStart] at hab; exact hab)
  · intro hnw
    rw [segmentsOf_eq_map_parse]
    refine (List.chain'_map _).mpr ?_
    have hp : (finalEvents R s0 audio).Pairwise
        (fun e e' : DecodeEvent => e.offset ≤ e'.offset) :=
      (decodeEvents_offsets_pairwise R s0 audio).filter _
    refine List.Pairwise.chain' (hp.imp_of_mem ?_)
    intro a b ha hb hab
    rw [parse_start_eq_segStart, parse_start_eq_segStart,
      segStart_of_no_word_start a.dict a.offset sr (hnw a ha),
      segStart_of_no_word_start b.dict b.offset sr (hnw b hb)]
    have hc : (a.offset : ℚ) ≤ (b.offset : ℚ) := Nat.cast_le.mpr hab
    exact (div_le_div_iff_of_pos_right hsr).mpr hc

/-- **C8, amended, witness.** -/
theorem segments_sorted_iff_starts_sorted_witness :
    0 < (16000 : ℚ) ∧
    ((List.Chain' (· ≤ ·)
        ((finalEvents recPlain () []).map
          (fun e => segStartOf e.dict e.offset 16000)) ↔
      List.Chain' (fun a b : TranscriptionSegment => a.start_time ≤ b.start_time)
        (segmentsOf recPlain () [] 16000)) ∧
     ((∀ e ∈ finalEvents recPlain () [], hasWordStart e.dict = false) →
      List.Chain' (fun a b : TranscriptionSegment => a.start_time ≤ b.start_time)
        (segmentsOf recPlain () [] 16000))) :=
  ⟨by norm_num, segments_sorted_iff_starts_sorted recPlain () [] 16000 (by norm_num)⟩

/-! ## C9: confidence bounds -/

/-- A recognizer whose final flush reports a word confidence of 2. -/
def recBigConf : Recognizer Unit :=
  ⟨fun _ _ => false, fun _ _ => ⟨"", none, none⟩, fun _ _ => ⟨"", none, none⟩,
   fun _ _ => (), fun _ => ⟨"a", none, some [⟨some 0, some 1, some 2⟩]⟩⟩

/-- **C9, counterexample.**  The claim asserts every produced segment's
confidence lies in `[0,1]`.  The code averages whatever `conf` values the
recognizer's JSON carries without validation or clamping
(speech_service.py lines 183-185): a flush event whose single word reports
`conf = 2` yields a segment with confidence 2. -/
theorem segment_confidence_bounds_cx :
    ¬ (∀ seg ∈ segmentsOf recBigConf () [] 16000,
        0 ≤ seg.confidence ∧ seg.confidence ≤ 1) := by
  intro h
  have hm : segmentsOf recBigConf () [] 16000 =
      [parse_vosk_result ⟨"a", none, some [⟨some 0, some 1, some 2⟩]⟩ 0 16000] := by
    simp [segmentsOf, chunkOffsets, chunkSize, segLoop, recBigConf]
  have h2 := h _ (by rw [hm]; exact List.mem_singleton.mpr rfl)
  have hc : (parse_vosk_result ⟨"a", none, some [⟨some 0, some 1, some 2⟩]⟩
      0 16000).confidence = 2 := by
    norm_num [parse_vosk_result, List.filterMap_cons]
  rw [hc] at h2
  exact absurd h2.2 (by norm_num)

/-- `0 ≤ c ≤ 1`, as a boolean. -/
def inUnit (c : ℚ) : Bool := decide (0 ≤ c) && decide (c ≤ 1)

/-- Every confidence value carried by the event's JSON — the top-level
`confidence` value and each word's `conf` — lies in `[0,1]`. -/
def eventConfsBounded (r : VoskResult) : Bool :=
  r.confidence.all inUnit &&
    r.result.all (fun ws => ws.all (fun w => w.conf.all inUnit))

/-- The mean of a nonempty list of values in `[0,1]` lies in `[0,1]`. -/
theorem list_mean_mem_unit (l : List ℚ) (hne : l ≠ [])
    (h : ∀ x ∈ l, 0 ≤ x ∧ x ≤ 1) :
    0 ≤ l.sum / (l.length : ℚ) ∧ l.sum / (l.length : ℚ) ≤ 1 := by
  have hlen : (0 : ℚ) < (l.length : ℚ) := by
    have := List.length_pos.mpr hne
    exact_mod_cast this
  constructor
  · exact div_nonneg (List.sum_nonneg (fun x hx => (h x hx).1)) (le_of_lt hlen)
  · rw [div_le_one hlen]
    calc l.sum ≤ l.length • (1 : ℚ) :=
          List.sum_le_card_nsmul l 1 (fun x hx => (h x hx).2)
      _ = (l.length : ℚ) := by simp

/-- `confidenceRule` stays in `[0,1]` when the event's reported values do. -/
theorem confidenceRule_mem_unit (r : VoskResult)
    (h : eventConfsBounded r = true) :
    0 ≤ confidenceRule r ∧ confidenceRule r ≤ 1 := by
  rcases r with ⟨t, c, res⟩
  simp only [eventConfsBounded, Bool.and_eq_true] at h
  obtain ⟨hc, hres⟩ := h
  have hcval : 0 ≤ (c.getD 0 : ℚ) ∧ (c.getD 0 : ℚ) ≤ 1 := by
    cases c with
    | none => norm_num
    | some v =>
        simp only [Option.all_some, inUnit, Bool.and_eq_true,
          decide_eq_true_eq] at hc
        simpa using hc
  cases res with
  | none => simpa [confidenceRule] using hcval
  | some ws =>
      cases ws with
      | nil => simpa [confidenceRule] using hcval
      | cons w ws' =>
          simp only [confidenceRule]
          by_cases hl : ((w :: ws').filterMap (fun x => x.conf)).length > 0
          · simp only [hl, if_true]
            refine list_mean_mem_unit _ ?_ ?_
            · intro hnil
              rw [hnil] at hl
              simp at hl
            · intro x hx
              obtain ⟨wx, hwx, hconf⟩ := List.mem_filterMap.mp hx
              simp only [Option.all_some, List.all_eq_true] at hres
              have := hres wx hwx
              cases hcw : wx.conf with
              | none => rw [hcw] at hconf; cases hconf
              | some v =>
                  rw [hcw] at hconf
                  cases hconf
                  rw [hcw] at this
                  simp only [Option.all_some, inUnit, Bool.and_eq_true,
                    decide_eq_true_eq] at this
                  exact this
          · simp only [hl, if_false]
            exact hcval

/-- **C9, amended.**  Provided every confidence value the recognizer
reports (per-word `conf` values and any top-level `confidence`) lies in
`[0,1]`, every segment produced by transcription has its confidence in
`[0,1]`; the code itself performs no validation or clamping. -/
theorem segment_confidence_in_unit {σ : Type} (R : Recognizer σ)
    (s0 : σ) (audio : List ℤ) (sr : ℚ)
    (H : ∀ e ∈ finalEvents R s0 audio, eventConfsBounded e.dict = true) :
    ∀ seg ∈ segmentsOf R s0 audio sr,
      0 ≤ seg.confidence ∧ seg.confidence ≤ 1 := by
  intro seg hseg
  rw [segmentsOf_eq_map_parse] at hseg
  obtain ⟨e, he, rfl⟩ := List.mem_map.mp hseg
  rw [parse_confidence_eq_rule]
  exact confidenceRule_mem_unit e.dict (H e he)

/-- **C9, amended, witness.** -/
theorem segment_confidence_in_unit_witness :
    (∀ e ∈ finalEvents recPlain () [], eventConfsBounded e.dict = true) ∧
    (∀ seg ∈ segmentsOf recPlain () [] 16000,
      0 ≤ seg.confidence ∧ seg.confidence ≤ 1) := by
  have H : ∀ e ∈ finalEvents recPlain () [], eventConfsBounded e.dict = true := by
    decide
  exact ⟨H, segment_confidence_in_unit recPlain () [] 16000 H⟩

end Voxtail
